/-
Verification of the market-maker trade-trigger and execution engine.

Shallow embedding of the Rust sources:
  src/crates/mm_token_utils/src/utils.rs          (universal_decode, extract_path_from_v3)
  src/bin/mm_token_rs/src/routers/uniswap2_service.rs
  src/bin/mm_token_rs/src/routers/uniswap3_service.rs
  src/bin/mm_token_rs/src/core/auto_buy_service.rs
  src/bin/mm_token_rs/src/core/sell_service.rs

Conventions:
  * H160 addresses are modelled as lists of bytes (20-byte lists) where the
    byte contents matter (path packing), and as plain Nat identifiers where
    only equality of addresses matters (pair resolution, allocation).
  * U256 values are modelled as Nat.  The primitive-types U256 operators
    panic on overflow/underflow; where a panic is reachable we model the
    operation as Option-valued (none = panic) instead of truncating.
  * Fallible RPC interactions (contract calls, transaction submission,
    receipt waits) are modelled as Except/ADT-valued fields of an explicit
    environment record, one field per call site.
-/
import Mathlib

/-! ## Concentrated-liquidity path packing (utils.rs, extract_path_from_v3) -/

/-- Loop of extract_path_from_v3 from mm_token_utils/src/utils.rs lines 204-215,
translated from index-walking over full_path to consumption of the remaining
byte list: each byte is pushed onto current_address; when current_address
reaches 20 bytes the address is emitted and the index jumps by 4 instead of 1,
i.e. the 3 fee bytes after the current one are dropped.  Bytes left in
current_address when the input runs out are discarded, as in the source. -/
def pathChunks (l : List Nat) (current_address : List Nat) : List (List Nat) :=
  match l with
  | [] => []
  | b :: rest =>
    let current2 := current_address ++ [b]
    if current2.length = 20 then current2 :: pathChunks (rest.drop 3) []
    else pathChunks rest current2
termination_by l.length
decreasing_by
  · simp only [List.length_cons, List.length_drop]; omega
  · simp only [List.length_cons]; omega

/-- Embedding of extract_path_from_v3 (utils.rs lines 202-222): unpack a
20-byte/3-byte interleaved path, reversing the result when is_reverse is
set (the V3_SWAP_EXACT_OUT case). -/
def extract_path_from_v3 (full_path : List Nat) (is_reverse : Bool) : List (List Nat) :=
  let path := pathChunks full_path []
  if is_reverse then path.reverse else path

theorem pathChunks_nil (cur : List Nat) : pathChunks [] cur = [] := by
  rw [pathChunks]

/-- Packing of a concentrated-liquidity path: 20-byte address segments
interleaved with 3-byte fee fields (fees carry one fewer entry than
addresses; no fee follows the final address). -/
def encode_v3_path : List (List Nat) → List (List Nat) → List Nat
  | [], _ => []
  | [a], _ => a
  | a :: b :: rest, f :: fs => a ++ (f ++ encode_v3_path (b :: rest) fs)
  | _ :: _ :: _, [] => []

theorem pathChunks_append (a : List Nat) (cur tail : List Nat)
    (hlen : cur.length + a.length = 20) (hne : a ≠ []) :
    pathChunks (a ++ tail) cur = (cur ++ a) :: pathChunks (tail.drop 3) [] := by
  induction a generalizing cur with
  | nil => exact absurd rfl hne
  | cons b a' ih =>
    rw [List.cons_append, pathChunks]
    cases a' with
    | nil =>
      have h20 : (cur ++ [b]).length = 20 := by
        simp only [List.length_append, List.length_cons, List.length_nil] at hlen ⊢
        omega
      simp only [h20, if_pos, List.nil_append, List.append_assoc]
    | cons c a'' =>
      have hne20 : ¬ (cur ++ [b]).length = 20 := by
        simp only [List.length_append, List.length_cons, List.length_nil] at hlen ⊢
        omega
      simp only [hne20, ite_false]
      have hlen2 : (cur ++ [b]).length + (c :: a'').length = 20 := by
        simp only [List.length_append, List.length_cons, List.length_nil] at hlen ⊢
        omega
      rw [ih (cur ++ [b]) hlen2 (by simp)]
      simp only [List.append_assoc, List.cons_append, List.nil_append]

theorem pathChunks_encode (addrs fees : List (List Nat))
    (haddr : ∀ a ∈ addrs, a.length = 20) (hfee : ∀ f ∈ fees, f.length = 3)
    (hlen : addrs.length = fees.length + 1) :
    pathChunks (encode_v3_path addrs fees) [] = addrs := by
  induction addrs generalizing fees with
  | nil => simp at hlen
  | cons a rest ih =>
    cases rest with
    | nil =>
      cases fees with
      | nil =>
        rw [encode_v3_path]
        have hstep : pathChunks (a ++ []) [] = ([] ++ a) :: pathChunks (List.drop 3 []) [] :=
          pathChunks_append a [] []
            (by simpa using haddr a (by simp)) (by
              intro hcontra
              have h20 := haddr a (by simp)
              rw [hcontra] at h20
              simp at h20)
        rw [List.append_nil] at hstep
        rw [hstep]
        simp [pathChunks_nil]
      | cons f fs => simp at hlen
    | cons b rest2 =>
      cases fees with
      | nil => simp at hlen
      | cons f fs =>
        rw [encode_v3_path]
        rw [pathChunks_append a [] (f ++ encode_v3_path (b :: rest2) fs)
          (by simpa using haddr a (by simp)) (by
            intro hcontra
            have := haddr a (by simp)
            rw [hcontra] at this
            simp at this)]
        have hf3 : f.length = 3 := hfee f (by simp)
        have hdrop : (f ++ encode_v3_path (b :: rest2) fs).drop 3 =
            encode_v3_path (b :: rest2) fs := by
          rw [← hf3, List.drop_left]
        rw [hdrop, List.nil_append]
        congr 1
        exact ih fs (fun x hx => haddr x (by simp [hx]))
          (fun x hx => hfee x (by simp [hx])) (by simpa using hlen)

/-- C2: packing a non-empty address list as 20-byte segments interleaved with
3-byte fee fields and decoding with extract_path_from_v3 returns the original
list when is_reverse is false, its reversal when is_reverse is true (the
exact-out case), and reversing the reversed result reproduces the original. -/
theorem extract_path_from_v3_roundtrip (addrs fees : List (List Nat))
    (haddr : ∀ a ∈ addrs, a.length = 20) (hfee : ∀ f ∈ fees, f.length = 3)
    (hlen : addrs.length = fees.length + 1) :
    extract_path_from_v3 (encode_v3_path addrs fees) false = addrs ∧
    extract_path_from_v3 (encode_v3_path addrs fees) true = addrs.reverse ∧
    (extract_path_from_v3 (encode_v3_path addrs fees) true).reverse = addrs := by
  have hbase : pathChunks (encode_v3_path addrs fees) [] = addrs :=
    pathChunks_encode addrs fees haddr hfee hlen
  refine ⟨?_, ?_, ?_⟩
  · simp [extract_path_from_v3, hbase]
  · simp [extract_path_from_v3, hbase]
  · simp [extract_path_from_v3, hbase]

/-- Witness for C2 at a concrete two-hop path. -/
theorem extract_path_from_v3_roundtrip_witness :
    extract_path_from_v3
        (encode_v3_path [List.replicate 20 7, List.replicate 20 9] [[0, 11, 184]])
        false = [List.replicate 20 7, List.replicate 20 9] ∧
    extract_path_from_v3
        (encode_v3_path [List.replicate 20 7, List.replicate 20 9] [[0, 11, 184]])
        true = [List.replicate 20 9, List.replicate 20 7] := by
  have h := extract_path_from_v3_roundtrip
    [List.replicate 20 7, List.replicate 20 9] [[0, 11, 184]]
    (by decide) (by decide) (by decide)
  exact ⟨h.1, by rw [h.2.1]; decide⟩

/-! ## Slippage haircut (uniswap2_service.get_amount_out_min,
    uniswap3_service.get_amount_out_by_slippage) -/

/-- Checked U256 multiplication: the primitive-types Mul implementation
panics on overflow (none models the panic), so no truncated product is
ever produced. -/
def u256_mul (a b : Nat) : Option Nat :=
  if a * b < 2 ^ 256 then some (a * b) else none

/-- Quote half of Uniswap2Service.get_amount_out_min (uniswap2_service.rs
lines 232-261): read token_0 and the reserves from the pair, orient them by
whether the tracked token is token0, and ask the router for get_amount_out
with (weth_reserve, mm_token_reserve) for a buy and the opposite order for a
sell.  Contract calls are fields of the environment; their errors propagate. -/
structure V2QuoteEnv where
  token_0 : Except String Nat
  get_reserves : Except String (Nat × Nat)
  get_amount_out : Nat → Nat → Nat → Except String Nat

def v2_unadjusted_amount_out (env : V2QuoteEnv) (token_address : Nat)
    (is_buy : Bool) (amount_in : Nat) : Except String Nat := do
  let token0_address ← env.token_0
  let (reserve0, reserve1) ← env.get_reserves
  let is_mm_token0 := token_address == token0_address
  let (mm_token_reserve, weth_reserve) :=
    if is_mm_token0 then (reserve0, reserve1) else (reserve1, reserve0)
  if is_buy then env.get_amount_out amount_in weth_reserve mm_token_reserve
  else env.get_amount_out amount_in mm_token_reserve weth_reserve

/-- Embedding of Uniswap2Service.get_amount_out_min (uniswap2_service.rs lines
232-272).  total_slippage is already converted to thousandths of a percent
(the source computes it as (total_slippage * 1000).trunc()).  The outer
Option models the U256 multiplication panic; the subtraction
amount_out - amount_out * slip / 100000 cannot underflow (proved below), so
it is modelled by truncated Nat subtraction. -/
def get_amount_out_min (env : V2QuoteEnv) (token_address : Nat) (is_buy : Bool)
    (amount_in : Nat) (total_slippage_u256 : Nat) : Option (Except String Nat) :=
  match v2_unadjusted_amount_out env token_address is_buy amount_in with
  | .error e => some (.error e)
  | .ok amount_out =>
    match u256_mul amount_out total_slippage_u256 with
    | some p => some (.ok (amount_out - p / 100000))
    | none => none

/-- Environment of Uniswap3Service.get_amount_out_by_slippage
(uniswap3_service.rs lines 228-267): the pool fee call and the QuoterV2
quote_exact_input_single call, the latter keyed by
(token_in, token_out, amount_in, fee) and returning a 4-tuple whose first
component is the quoted amount out. -/
structure V3QuoteEnv where
  fee : Except String Nat
  quote_exact_input_single : Nat → Nat → Nat → Nat → Except String (Nat × Nat × Nat × Nat)

/-- Embedding of Uniswap3Service.get_amount_out_by_slippage: a failed quoter
call is swallowed and yields Ok(0); a failed fee call propagates; the
slippage haircut is identical to the constant-product one. -/
def get_amount_out_by_slippage (env : V3QuoteEnv) (token_in token_out : Nat)
    (amount_in : Nat) (total_slippage_u256 : Nat) : Option (Except String Nat) :=
  match env.fee with
  | .error e => some (.error e)
  | .ok pool_fee =>
    match env.quote_exact_input_single token_in token_out amount_in pool_fee with
    | .error _ => some (.ok 0)
    | .ok (amount_out, _, _, _) =>
      match u256_mul amount_out total_slippage_u256 with
      | some p => some (.ok (amount_out - p / 100000))
      | none => none

theorem haircut_le (amount_out slip r : Nat) (hs : slip < 100000)
    (hr : r = amount_out - amount_out * slip / 100000) :
    amount_out * slip / 100000 ≤ amount_out ∧ r ≤ amount_out ∧
      (slip = 0 → r = amount_out) := by
  have hdiv : amount_out * slip / 100000 ≤ amount_out := by
    calc amount_out * slip / 100000 ≤ amount_out * 100000 / 100000 := by
          apply Nat.div_le_div_right
          exact Nat.mul_le_mul_left _ (by omega)
      _ = amount_out := Nat.mul_div_cancel amount_out (by omega)
  refine ⟨hdiv, ?_, ?_⟩
  · omega
  · intro h0
    subst h0
    simp at hr
    omega

/-- C3: for every quote produced by either venue and every slippage value
with 0 ≤ slip < 100000 (thousandths of a percent), the adjusted amount
amount_out - amount_out * slip / 100000 never exceeds the unadjusted quote,
equals it exactly when slip = 0, and the U256 subtraction never underflows
(the subtrahend amount_out * slip / 100000 is at most amount_out). -/
theorem slippage_haircut_bound (slip : Nat) (hs : slip < 100000) :
    (∀ amount_out : Nat, amount_out * slip / 100000 ≤ amount_out) ∧
    (∀ (env : V2QuoteEnv) (token_address : Nat) (is_buy : Bool)
        (amount_in amount_out r : Nat),
      v2_unadjusted_amount_out env token_address is_buy amount_in = .ok amount_out →
      get_amount_out_min env token_address is_buy amount_in slip = some (.ok r) →
      r ≤ amount_out ∧ (slip = 0 → r = amount_out)) ∧
    (∀ (env : V3QuoteEnv) (token_in token_out : Nat)
        (amount_in pool_fee : Nat) (q : Nat × Nat × Nat × Nat) (r : Nat),
      env.fee = .ok pool_fee →
      env.quote_exact_input_single token_in token_out amount_in pool_fee = .ok q →
      get_amount_out_by_slippage env token_in token_out amount_in slip =
        some (.ok r) →
      r ≤ q.1 ∧ (slip = 0 → r = q.1)) := by
  refine ⟨?_, ?_, ?_⟩
  · intro amount_out
    exact (haircut_le amount_out slip _ hs rfl).1
  · intro env token_address is_buy amount_in amount_out r hq hmin
    unfold get_amount_out_min at hmin
    rw [hq] at hmin
    simp only at hmin
    cases hu : u256_mul amount_out slip with
    | none => rw [hu] at hmin; simp at hmin
    | some p =>
      rw [hu] at hmin
      simp only [Option.some.injEq, Except.ok.injEq] at hmin
      unfold u256_mul at hu
      split at hu
      · have hp : p = amount_out * slip := by
          cases hu
          rfl
        exact (haircut_le amount_out slip r hs (by omega)).2
      · cases hu
  · intro env token_in token_out amount_in pool_fee q r hfee hq hval
    unfold get_amount_out_by_slippage at hval
    rw [hfee] at hval
    simp only at hval
    rw [hq] at hval
    obtain ⟨q1, q2, q3, q4⟩ := q
    simp only at hval
    cases hu : u256_mul q1 slip with
    | none => rw [hu] at hval; simp at hval
    | some p =>
      rw [hu] at hval
      simp only [Option.some.injEq, Except.ok.injEq] at hval
      unfold u256_mul at hu
      split at hu
      · have hp : p = q1 * slip := by
          cases hu
          rfl
        exact (haircut_le q1 slip r hs (by omega)).2
      · cases hu

/-- Witness for C3: a pair environment quoting 1000 with slippage 500
(0.5 percent) yields 995 on the constant-product path, and a quoter
environment quoting 1000 yields 995 on the concentrated-liquidity path. -/
theorem slippage_haircut_bound_witness :
    (995 : Nat) ≤ 1000 ∧ ((500 : Nat) = 0 → (995 : Nat) = 1000) := by
  have h := (slippage_haircut_bound 500 (by decide)).2.1
    ⟨.ok 1, .ok (10, 20), fun _ _ _ => .ok 1000⟩ 1 true 50 1000 995
    rfl rfl
  exact h

/-- C5: whenever the QuoterV2 quote_exact_input_single call fails (and the
preceding pool-fee call succeeded, so the quoter call is actually reached),
get_amount_out_by_slippage swallows the failure and returns Ok(0) instead of
propagating the error. -/
theorem quote_failure_returns_ok_zero (env : V3QuoteEnv)
    (token_in token_out amount_in slip pool_fee : Nat) (e : String)
    (hfee : env.fee = .ok pool_fee)
    (hq : env.quote_exact_input_single token_in token_out amount_in pool_fee =
      .error e) :
    get_amount_out_by_slippage env token_in token_out amount_in slip =
      some (.ok 0) := by
  unfold get_amount_out_by_slippage
  rw [hfee]
  simp only
  rw [hq]

/-- Witness for C5 with a concretely failing quoter. -/
theorem quote_failure_returns_ok_zero_witness :
    get_amount_out_by_slippage
      ⟨.ok 3000, fun _ _ _ _ => .error "execution reverted"⟩ 1 2 100 500 =
      some (.ok 0) :=
  quote_failure_returns_ok_zero _ 1 2 100 500 3000 "execution reverted" rfl rfl

/-! ## Universal-router command dispatch (utils.rs, universal_decode) -/

/-- Command opcodes from mm_token_utils/src/constants/uniswap.rs lines
108-111. -/
def V3_SWAP_EXACT_IN : Nat := 0

def V3_SWAP_EXACT_OUT : Nat := 1

def V2_SWAP_EXACT_IN : Nat := 8

def V2_SWAP_EXACT_OUT : Nat := 9

/-- Decoded swap description (utils.rs lines 77-84).  The Rust Default
derive gives zero amounts and an empty path. -/
structure SwapUniversalRouterInfo where
  amount_in : Nat
  amount_out : Nat
  path : List (List Nat)
deriving DecidableEq, Repr

def SwapUniversalRouterInfo.default : SwapUniversalRouterInfo :=
  { amount_in := 0, amount_out := 0, path := [] }

/-- The four ABI sub-decoders called by universal_decode
(decode_v2_swap_exact_in and friends, utils.rs lines 86-200).  Their bodies
perform ethabi decoding of the input bytes; the dispatch result for unknown
commands does not depend on them, so they are carried as an abstract record
and the theorems below hold for every instantiation. -/
structure UniversalSubDecoders where
  v2_swap_exact_in : List Nat → SwapUniversalRouterInfo
  v2_swap_exact_out : List Nat → SwapUniversalRouterInfo
  v3_swap_exact_in : List Nat → SwapUniversalRouterInfo
  v3_swap_exact_out : List Nat → SwapUniversalRouterInfo

/-- Embedding of universal_decode (utils.rs lines 66-75): dispatch on the
command byte; every byte other than the four known opcodes produces the
default value. -/
def universal_decode (d : UniversalSubDecoders) (command : Nat)
    (input : List Nat) : SwapUniversalRouterInfo :=
  if command = V2_SWAP_EXACT_IN then d.v2_swap_exact_in input
  else if command = V2_SWAP_EXACT_OUT then d.v2_swap_exact_out input
  else if command = V3_SWAP_EXACT_IN then d.v3_swap_exact_in input
  else if command = V3_SWAP_EXACT_OUT then d.v3_swap_exact_out input
  else SwapUniversalRouterInfo.default

/-- One iteration of the command loop of start_mempool_mode
(auto_buy_service.rs lines 294-313) over the running state
(is_sell_tx_universal_matched, sell_token_amount, sell_tx_value): decode the
command, and only when the decoded path is non-empty compare its first two
entries against the tracked token and the wrapped-native token.  The none
result models the panic of the path[1] access when the path has exactly one
entry. -/
def universal_scan_step (d : UniversalSubDecoders) (token_address weth_address : List Nat)
    (st : Bool × Nat × Nat) (command : Nat) (input : List Nat) :
    Option (Bool × Nat × Nat) :=
  let swap_info := universal_decode d command input
  match swap_info.path with
  | [] => some st
  | [_] => none
  | from_token :: to_token :: _ =>
    if from_token = token_address ∧ to_token = weth_address then
      some (true, swap_info.amount_in, swap_info.amount_out)
    else some st

/-- C10: every command byte other than the four known opcodes decodes to the
inert default (zero amounts, empty path) for every input and every
instantiation of the sub-decoders, and consequently the non-empty-path guard
of the mempool feed leaves the matching state untouched on such commands. -/
theorem universal_decode_unknown_default (d : UniversalSubDecoders)
    (command : Nat) (input : List Nat)
    (h0 : command ≠ V3_SWAP_EXACT_IN) (h1 : command ≠ V3_SWAP_EXACT_OUT)
    (h8 : command ≠ V2_SWAP_EXACT_IN) (h9 : command ≠ V2_SWAP_EXACT_OUT) :
    universal_decode d command input = SwapUniversalRouterInfo.default ∧
    ∀ (token_address weth_address : List Nat) (st : Bool × Nat × Nat),
      universal_scan_step d token_address weth_address st command input = some st := by
  have hdec : universal_decode d command input = SwapUniversalRouterInfo.default := by
    rw [universal_decode]
    simp only [h8, h9, h0, h1, ite_false]
  refine ⟨hdec, ?_⟩
  intro token_address weth_address st
  rw [universal_scan_step]
  simp only [hdec]
  rfl

/-- Witness for C10 at command byte 5 with arbitrary concrete decoders. -/
theorem universal_decode_unknown_default_witness :
    universal_decode
        ⟨fun _ => ⟨1, 2, [[3]]⟩, fun _ => ⟨4, 5, [[6]]⟩,
         fun _ => ⟨7, 8, [[9]]⟩, fun _ => ⟨10, 11, [[12]]⟩⟩ 5 [1, 2, 3] =
      SwapUniversalRouterInfo.default ∧
    universal_scan_step
        ⟨fun _ => ⟨1, 2, [[3]]⟩, fun _ => ⟨4, 5, [[6]]⟩,
         fun _ => ⟨7, 8, [[9]]⟩, fun _ => ⟨10, 11, [[12]]⟩⟩
        [20] [21] (false, 0, 0) 5 [1, 2, 3] = some (false, 0, 0) := by
  have h := universal_decode_unknown_default
    ⟨fun _ => ⟨1, 2, [[3]]⟩, fun _ => ⟨4, 5, [[6]]⟩,
     fun _ => ⟨7, 8, [[9]]⟩, fun _ => ⟨10, 11, [[12]]⟩⟩ 5 [1, 2, 3]
    (by decide) (by decide) (by decide) (by decide)
  exact ⟨h.1, h.2 [20] [21] (false, 0, 0)⟩

/-! ## Trigger allocation (auto_buy_service.process_trigger_buy,
    sell_service.process_trigger_sell) -/

/-- In-memory per-wallet state (WalletContext).  Addresses are plain Nat
identifiers.  The RwLock around each entry is modelled by the Bool paired
with the entry in the wallet list below (true = try_write fails). -/
structure WalletContext where
  index : Nat
  address : Nat
  nonce : Nat
  eth_balance : Nat
  token_balance : Nat
deriving DecidableEq, Repr

/-- Usable balance of a wallet for a buy: native balance minus the
reserve-floor surplus (zero when the balance does not exceed the floor). -/
def buy_usable (surplus : Nat) (w : WalletContext) : Nat := w.eth_balance - surplus

/-- Usable balance of a wallet for a sell: the full token balance. -/
def sell_usable (w : WalletContext) : Nat := w.token_balance

def jobsSum (jobs : List (Nat × Nat)) : Nat := (jobs.map Prod.snd).sum

def usableSumBuy (surplus : Nat) (ws : List (Bool × WalletContext)) : Nat :=
  (ws.map fun p => buy_usable surplus p.2).sum

def usableSumSell (ws : List (Bool × WalletContext)) : Nat :=
  (ws.map fun p => sell_usable p.2).sum

/-- Wallet pass of process_trigger_buy (auto_buy_service.rs lines 679-710):
iterate the wallet entries, skipping entries whose lock is held (try_write
failure) and entries whose native balance does not exceed the surplus floor;
a wallet whose usable balance is at most the remaining amount is committed in
full (the source updates the remainder by total += surplus; total -= balance)
and a wallet whose usable balance exceeds the remainder becomes a candidate
for the final partial fill.  The loop stops when the remainder reaches
zero. -/
def process_trigger_buy_loop (auto_buyer_surplus_balance : Nat)
    (wallets : List (Bool × WalletContext)) (total_buy_amount : Nat)
    (wallet_configs : List (Nat × Nat)) (the_chosen_ones : List Nat) :
    List (Nat × Nat) × List Nat × Nat :=
  match wallets with
  | [] => (wallet_configs, the_chosen_ones, total_buy_amount)
  | (locked, w) :: rest =>
    if total_buy_amount = 0 then (wallet_configs, the_chosen_ones, total_buy_amount)
    else if locked then
      process_trigger_buy_loop auto_buyer_surplus_balance rest total_buy_amount
        wallet_configs the_chosen_ones
    else if w.eth_balance ≤ auto_buyer_surplus_balance then
      process_trigger_buy_loop auto_buyer_surplus_balance rest total_buy_amount
        wallet_configs the_chosen_ones
    else if w.eth_balance - auto_buyer_surplus_balance ≤ total_buy_amount then
      process_trigger_buy_loop auto_buyer_surplus_balance rest
        (total_buy_amount + auto_buyer_surplus_balance - w.eth_balance)
        (wallet_configs ++ [(w.address, w.eth_balance - auto_buyer_surplus_balance)])
        the_chosen_ones
    else
      process_trigger_buy_loop auto_buyer_surplus_balance rest total_buy_amount
        wallet_configs (the_chosen_ones ++ [w.address])

/-- Allocation part of process_trigger_buy (auto_buy_service.rs lines
679-725): run the wallet pass, then, if an amount remains, assign it to a
randomly chosen candidate (the random pick is modelled by an arbitrary index
chooseIdx reduced modulo the candidate count).  The Bool records the
"cannot find any wallet" report when the remainder is positive and no
candidate exists; the already-committed jobs are still returned in that
case. -/
def process_trigger_buy (auto_buyer_surplus_balance : Nat)
    (wallets : List (Bool × WalletContext)) (total_buy_amount : Nat)
    (chooseIdx : Nat) : List (Nat × Nat) × Bool :=
  let r := process_trigger_buy_loop auto_buyer_surplus_balance wallets
    total_buy_amount [] []
  let wallet_configs := r.1
  let the_chosen_ones := r.2.1
  let total := r.2.2
  if 0 < total then
    match the_chosen_ones with
    | [] => (wallet_configs, true)
    | c :: cs =>
      (wallet_configs ++
        [((c :: cs).get ⟨chooseIdx % (c :: cs).length,
            Nat.mod_lt _ (Nat.succ_pos _)⟩, total)], false)
  else (wallet_configs, false)

/-- Wallet pass of process_trigger_sell (sell_service.rs lines 634-651):
same shape as the buy pass with usable balance = full token balance and a
zero-balance skip instead of the surplus floor. -/
def process_trigger_sell_loop (wallets : List (Bool × WalletContext))
    (total_sell_amount : Nat) (wallet_configs : List (Nat × Nat))
    (the_chosen_ones : List Nat) : List (Nat × Nat) × List Nat × Nat :=
  match wallets with
  | [] => (wallet_configs, the_chosen_ones, total_sell_amount)
  | (locked, w) :: rest =>
    if total_sell_amount = 0 then (wallet_configs, the_chosen_ones, total_sell_amount)
    else if locked then
      process_trigger_sell_loop rest total_sell_amount wallet_configs the_chosen_ones
    else if w.token_balance = 0 then
      process_trigger_sell_loop rest total_sell_amount wallet_configs the_chosen_ones
    else if w.token_balance ≤ total_sell_amount then
      process_trigger_sell_loop rest (total_sell_amount - w.token_balance)
        (wallet_configs ++ [(w.address, w.token_balance)]) the_chosen_ones
    else
      process_trigger_sell_loop rest total_sell_amount wallet_configs
        (the_chosen_ones ++ [w.address])

/-- Allocation part of process_trigger_sell (sell_service.rs lines 615-670),
residual handling identical to the buy side. -/
def process_trigger_sell (wallets : List (Bool × WalletContext))
    (total_sell_amount : Nat) (chooseIdx : Nat) : List (Nat × Nat) × Bool :=
  let r := process_trigger_sell_loop wallets total_sell_amount [] []
  let wallet_configs := r.1
  let the_chosen_ones := r.2.1
  let total := r.2.2
  if 0 < total then
    match the_chosen_ones with
    | [] => (wallet_configs, true)
    | c :: cs =>
      (wallet_configs ++
        [((c :: cs).get ⟨chooseIdx % (c :: cs).length,
            Nat.mod_lt _ (Nat.succ_pos _)⟩, total)], false)
  else (wallet_configs, false)

/-- Invariants of the greedy wallet pass, stated for a generic usable-balance
function: conservation of the allocated amount, monotone remainder, origin
and bound of every job, candidates strictly exceed the final remainder, and
when nothing was turned into a candidate the pass committed the full usable
sum. -/
def LoopSpec (usable : WalletContext → Nat) (ws : List (Bool × WalletContext))
    (total : Nat) (configs : List (Nat × Nat)) (chosen : List Nat)
    (configs' : List (Nat × Nat)) (chosen' : List Nat) (total' : Nat) : Prop :=
  total' + jobsSum configs' = total + jobsSum configs ∧
  total' ≤ total ∧
  (∀ j ∈ configs', j ∈ configs ∨ ∃ p ∈ ws, j.1 = p.2.address ∧ j.2 ≤ usable p.2) ∧
  (∃ s, chosen' = chosen ++ s) ∧
  (∀ a ∈ chosen', a ∈ chosen ∨ ∃ p ∈ ws, a = p.2.address ∧ total' < usable p.2) ∧
  (0 < total' → chosen' = chosen →
    (ws.map fun p => usable p.2).sum + total' ≤ total)

theorem loopSpec_id (usable : WalletContext → Nat) (ws : List (Bool × WalletContext))
    (total : Nat) (configs : List (Nat × Nat)) (chosen : List Nat) (htz : total = 0) :
    LoopSpec usable ws total configs chosen configs chosen total := by
  refine ⟨rfl, le_refl _, fun j hj => Or.inl hj, ⟨[], by simp⟩,
    fun a ha => Or.inl ha, fun hpos _ => by omega⟩

theorem loopSpec_skip (usable : WalletContext → Nat) (p : Bool × WalletContext)
    (ws : List (Bool × WalletContext)) (total : Nat) (configs : List (Nat × Nat))
    (chosen : List Nat) (configs' : List (Nat × Nat)) (chosen' : List Nat)
    (total' : Nat) (hz : usable p.2 = 0)
    (h : LoopSpec usable ws total configs chosen configs' chosen' total') :
    LoopSpec usable (p :: ws) total configs chosen configs' chosen' total' := by
  obtain ⟨h1, h2, h3, h4, h5, h6⟩ := h
  refine ⟨h1, h2, ?_, h4, ?_, ?_⟩
  · intro j hj
    rcases h3 j hj with hin | ⟨q, hq, ha, hb⟩
    · exact Or.inl hin
    · exact Or.inr ⟨q, List.mem_cons_of_mem _ hq, ha, hb⟩
  · intro a ha
    rcases h5 a ha with hin | ⟨q, hq, ha2, hb⟩
    · exact Or.inl hin
    · exact Or.inr ⟨q, List.mem_cons_of_mem _ hq, ha2, hb⟩
  · intro hpos hch
    have := h6 hpos hch
    simp only [List.map_cons, List.sum_cons, hz]
    omega

theorem loopSpec_commit (usable : WalletContext → Nat) (p : Bool × WalletContext)
    (ws : List (Bool × WalletContext)) (total : Nat) (configs : List (Nat × Nat))
    (chosen : List Nat) (configs' : List (Nat × Nat)) (chosen' : List Nat)
    (total' : Nat) (hle : usable p.2 ≤ total)
    (h : LoopSpec usable ws (total - usable p.2)
      (configs ++ [(p.2.address, usable p.2)]) chosen configs' chosen' total') :
    LoopSpec usable (p :: ws) total configs chosen configs' chosen' total' := by
  obtain ⟨h1, h2, h3, h4, h5, h6⟩ := h
  have hsum : jobsSum (configs ++ [(p.2.address, usable p.2)]) =
      jobsSum configs + usable p.2 := by
    simp [jobsSum]
  refine ⟨by omega, by omega, ?_, h4, ?_, ?_⟩
  · intro j hj
    rcases h3 j hj with hin | ⟨q, hq, ha, hb⟩
    · rcases List.mem_append.mp hin with hin2 | hin2
      · exact Or.inl hin2
      · refine Or.inr ⟨p, List.mem_cons_self _ _, ?_, ?_⟩
        · rw [List.mem_singleton.mp hin2]
        · rw [List.mem_singleton.mp hin2]
    · exact Or.inr ⟨q, List.mem_cons_of_mem _ hq, ha, hb⟩
  · intro a ha
    rcases h5 a ha with hin | ⟨q, hq, ha2, hb⟩
    · exact Or.inl hin
    · exact Or.inr ⟨q, List.mem_cons_of_mem _ hq, ha2, hb⟩
  · intro hpos hch
    have := h6 hpos hch
    simp only [List.map_cons, List.sum_cons]
    omega

theorem loopSpec_candidate (usable : WalletContext → Nat) (p : Bool × WalletContext)
    (ws : List (Bool × WalletContext)) (total : Nat) (configs : List (Nat × Nat))
    (chosen : List Nat) (configs' : List (Nat × Nat)) (chosen' : List Nat)
    (total' : Nat) (hgt : total < usable p.2)
    (h : LoopSpec usable ws total configs (chosen ++ [p.2.address]) configs' chosen' total') :
    LoopSpec usable (p :: ws) total configs chosen configs' chosen' total' := by
  obtain ⟨h1, h2, h3, h4, h5, h6⟩ := h
  obtain ⟨s, hs⟩ := h4
  refine ⟨h1, h2, ?_, ⟨[p.2.address] ++ s, by rw [hs, List.append_assoc]⟩, ?_, ?_⟩
  · intro j hj
    rcases h3 j hj with hin | ⟨q, hq, ha, hb⟩
    · exact Or.inl hin
    · exact Or.inr ⟨q, List.mem_cons_of_mem _ hq, ha, hb⟩
  · intro a ha
    rcases h5 a ha with hin | ⟨q, hq, ha2, hb⟩
    · rcases List.mem_append.mp hin with hin2 | hin2
      · exact Or.inl hin2
      · refine Or.inr ⟨p, List.mem_cons_self _ _, List.mem_singleton.mp hin2, ?_⟩
        omega
    · exact Or.inr ⟨q, List.mem_cons_of_mem _ hq, ha2, hb⟩
  · intro hpos hch
    exfalso
    rw [hch] at hs
    have : chosen.length = chosen.length + 1 + s.length := by
      calc chosen.length = ((chosen ++ [p.2.address]) ++ s).length := by rw [← hs]
        _ = chosen.length + 1 + s.length := by simp; omega
    omega

theorem process_trigger_buy_loop_spec (surplus : Nat) (ws : List (Bool × WalletContext)) :
    ∀ (total : Nat) (configs : List (Nat × Nat)) (chosen : List Nat)
      (configs' : List (Nat × Nat)) (chosen' : List Nat) (total' : Nat),
      (∀ p ∈ ws, p.1 = false) →
      process_trigger_buy_loop surplus ws total configs chosen =
        (configs', chosen', total') →
      LoopSpec (buy_usable surplus) ws total configs chosen configs' chosen' total' := by
  induction ws with
  | nil =>
    intro total configs chosen configs' chosen' total' hfree heq
    rw [process_trigger_buy_loop] at heq
    injection heq with ha hbc
    injection hbc with hb hc
    subst ha; subst hb; subst hc
    refine ⟨rfl, le_refl _, fun j hj => Or.inl hj, ⟨[], by simp⟩,
      fun a ha => Or.inl ha, fun _ _ => by simp⟩
  | cons p rest ih =>
    intro total configs chosen configs' chosen' total' hfree heq
    obtain ⟨locked, w⟩ := p
    have hl : locked = false := hfree (locked, w) (List.mem_cons_self _ _)
    subst hl
    have hfree2 : ∀ q ∈ rest, q.1 = false := fun q hq => hfree q (List.mem_cons_of_mem _ hq)
    rw [process_trigger_buy_loop] at heq
    by_cases ht0 : total = 0
    · rw [if_pos ht0] at heq
      injection heq with ha hbc
      injection hbc with hb hc
      subst ha; subst hb; subst hc
      exact loopSpec_id _ _ _ _ _ ht0
    · rw [if_neg ht0, if_neg Bool.false_ne_true] at heq
      by_cases hskip : w.eth_balance ≤ surplus
      · rw [if_pos hskip] at heq
        exact loopSpec_skip _ (false, w) rest _ _ _ _ _ _
          (by simp only [buy_usable]; omega)
          (ih total configs chosen configs' chosen' total' hfree2 heq)
      · rw [if_neg hskip] at heq
        by_cases hcommit : w.eth_balance - surplus ≤ total
        · rw [if_pos hcommit] at heq
          have harith : total + surplus - w.eth_balance = total - buy_usable surplus w := by
            simp only [buy_usable]; omega
          rw [harith] at heq
          exact loopSpec_commit _ (false, w) rest total configs chosen _ _ _
            (by simp only [buy_usable] at *; omega)
            (ih _ _ _ _ _ _ hfree2 heq)
        · rw [if_neg hcommit] at heq
          exact loopSpec_candidate _ (false, w) rest total configs chosen _ _ _
            (by simp only [buy_usable]; omega)
            (ih _ _ _ _ _ _ hfree2 heq)

theorem process_trigger_sell_loop_spec (ws : List (Bool × WalletContext)) :
    ∀ (total : Nat) (configs : List (Nat × Nat)) (chosen : List Nat)
      (configs' : List (Nat × Nat)) (chosen' : List Nat) (total' : Nat),
      (∀ p ∈ ws, p.1 = false) →
      process_trigger_sell_loop ws total configs chosen = (configs', chosen', total') →
      LoopSpec sell_usable ws total configs chosen configs' chosen' total' := by
  induction ws with
  | nil =>
    intro total configs chosen configs' chosen' total' hfree heq
    rw [process_trigger_sell_loop] at heq
    injection heq with ha hbc
    injection hbc with hb hc
    subst ha; subst hb; subst hc
    refine ⟨rfl, le_refl _, fun j hj => Or.inl hj, ⟨[], by simp⟩,
      fun a ha => Or.inl ha, fun _ _ => by simp⟩
  | cons p rest ih =>
    intro total configs chosen configs' chosen' total' hfree heq
    obtain ⟨locked, w⟩ := p
    have hl : locked = false := hfree (locked, w) (List.mem_cons_self _ _)
    subst hl
    have hfree2 : ∀ q ∈ rest, q.1 = false := fun q hq => hfree q (List.mem_cons_of_mem _ hq)
    rw [process_trigger_sell_loop] at heq
    by_cases ht0 : total = 0
    · rw [if_pos ht0] at heq
      injection heq with ha hbc
      injection hbc with hb hc
      subst ha; subst hb; subst hc
      exact loopSpec_id _ _ _ _ _ ht0
    · rw [if_neg ht0, if_neg Bool.false_ne_true] at heq
      by_cases hskip : w.token_balance = 0
      · rw [if_pos hskip] at heq
        exact loopSpec_skip _ (false, w) rest _ _ _ _ _ _
          (by simp only [sell_usable]; omega)
          (ih total configs chosen configs' chosen' total' hfree2 heq)
      · rw [if_neg hskip] at heq
        by_cases hcommit : w.token_balance ≤ total
        · rw [if_pos hcommit] at heq
          exact loopSpec_commit _ (false, w) rest total configs chosen _ _ _
            (by simp only [sell_usable]; omega)
            (ih _ _ _ _ _ _ hfree2 heq)
        · rw [if_neg hcommit] at heq
          exact loopSpec_candidate _ (false, w) rest total configs chosen _ _ _
            (by simp only [sell_usable]; omega)
            (ih _ _ _ _ _ _ hfree2 heq)

/-- C1: when no wallet is concurrently claimed and the combined usable
balance (native balance minus the surplus floor for buys; full token balance
for sells) covers the required amount, the job list produced by the
trigger-allocation pass sums exactly to the required amount and every job,
including the randomly chosen residual one, stays within the usable balance
of a wallet carrying its address. -/
theorem trigger_allocation_exact (wallets : List (Bool × WalletContext))
    (required surplus chooseIdx : Nat)
    (hfree : ∀ p ∈ wallets, p.1 = false) :
    (usableSumBuy surplus wallets ≥ required →
      jobsSum (process_trigger_buy surplus wallets required chooseIdx).1 = required ∧
      ∀ j ∈ (process_trigger_buy surplus wallets required chooseIdx).1,
        ∃ p ∈ wallets, j.1 = p.2.address ∧ j.2 ≤ buy_usable surplus p.2) ∧
    (usableSumSell wallets ≥ required →
      jobsSum (process_trigger_sell wallets required chooseIdx).1 = required ∧
      ∀ j ∈ (process_trigger_sell wallets required chooseIdx).1,
        ∃ p ∈ wallets, j.1 = p.2.address ∧ j.2 ≤ sell_usable p.2) := by
  constructor
  · intro hsum
    rcases hloop : process_trigger_buy_loop surplus wallets required [] [] with
      ⟨configs, chosen, total⟩
    obtain ⟨h1, h2, h3, h4, h5, h6⟩ :=
      process_trigger_buy_loop_spec surplus wallets required [] [] configs chosen total
        hfree hloop
    have h1s : total + (configs.map Prod.snd).sum = required := by
      simpa [jobsSum] using h1
    unfold process_trigger_buy
    rw [hloop]
    by_cases htot : 0 < total
    · simp only [if_pos htot]
      cases chosen with
      | nil =>
        exfalso
        have h66 := h6 htot rfl
        unfold usableSumBuy at hsum
        omega
      | cons c cs =>
        constructor
        · simp only [jobsSum, List.map_append, List.sum_append, List.map_cons,
            List.sum_cons, List.map_nil, List.sum_nil]
          omega
        · intro j hj
          rcases List.mem_append.mp hj with hj1 | hj2
          · rcases h3 j hj1 with hin | hwit
            · simp at hin
            · exact hwit
          · have hjeq := List.mem_singleton.mp hj2
            have hmem : (c :: cs).get ⟨chooseIdx % (c :: cs).length,
                Nat.mod_lt _ (Nat.succ_pos _)⟩ ∈ c :: cs := List.get_mem _ _ _
            rcases h5 _ hmem with hin | ⟨p, hp, ha, hb⟩
            · simp at hin
            · refine ⟨p, hp, ?_, ?_⟩
              · rw [hjeq, ← ha]
              · rw [hjeq]; omega
    · simp only [if_neg htot]
      constructor
      · simp only [jobsSum]
        omega
      · intro j hj
        rcases h3 j hj with hin | hwit
        · simp at hin
        · exact hwit
  · intro hsum
    rcases hloop : process_trigger_sell_loop wallets required [] [] with
      ⟨configs, chosen, total⟩
    obtain ⟨h1, h2, h3, h4, h5, h6⟩ :=
      process_trigger_sell_loop_spec wallets required [] [] configs chosen total
        hfree hloop
    have h1s : total + (configs.map Prod.snd).sum = required := by
      simpa [jobsSum] using h1
    unfold process_trigger_sell
    rw [hloop]
    by_cases htot : 0 < total
    · simp only [if_pos htot]
      cases chosen with
      | nil =>
        exfalso
        have h66 := h6 htot rfl
        unfold usableSumSell at hsum
        omega
      | cons c cs =>
        constructor
        · simp only [jobsSum, List.map_append, List.sum_append, List.map_cons,
            List.sum_cons, List.map_nil, List.sum_nil]
          omega
        · intro j hj
          rcases List.mem_append.mp hj with hj1 | hj2
          · rcases h3 j hj1 with hin | hwit
            · simp at hin
            · exact hwit
          · have hjeq := List.mem_singleton.mp hj2
            have hmem : (c :: cs).get ⟨chooseIdx % (c :: cs).length,
                Nat.mod_lt _ (Nat.succ_pos _)⟩ ∈ c :: cs := List.get_mem _ _ _
            rcases h5 _ hmem with hin | ⟨p, hp, ha, hb⟩
            · simp at hin
            · refine ⟨p, hp, ?_, ?_⟩
              · rw [hjeq, ← ha]
              · rw [hjeq]; omega
    · simp only [if_neg htot]
      constructor
      · simp only [jobsSum]
        omega
      · intro j hj
        rcases h3 j hj with hin | hwit
        · simp at hin
        · exact hwit

theorem trigger_allocation_exact_witness :
    jobsSum (process_trigger_buy 20
      [(false, ⟨0, 10, 0, 50, 30⟩), (false, ⟨1, 11, 0, 80, 5⟩)] 70 0).1 = 70 ∧
    jobsSum (process_trigger_sell
      [(false, ⟨0, 10, 0, 50, 30⟩), (false, ⟨1, 11, 0, 80, 5⟩)] 32 0).1 = 32 := by
  have h := trigger_allocation_exact
    [(false, ⟨0, 10, 0, 50, 30⟩), (false, ⟨1, 11, 0, 80, 5⟩)] 70 20 0 (by decide)
  have h2 := trigger_allocation_exact
    [(false, ⟨0, 10, 0, 50, 30⟩), (false, ⟨1, 11, 0, 80, 5⟩)] 32 20 0 (by decide)
  exact ⟨(h.1 (by decide)).1, (h2.2 (by decide)).1⟩

/-! ## Trade executors (auto_buy_service.try_buy, sell_service.sell) -/

/-- Receipt-wait outcome for the buy executor (auto_buy_service.rs lines
789-795): the wait is wrapped in a 10-second timeout, the provider can fail
the wait, the receipt can be absent, or a receipt arrives whose status field
equals Some(0) on an on-chain revert (status_failed = true). -/
inductive BuyReceiptWait where
  | timeout_elapsed
  | wait_err (msg : String)
  | missing
  | confirmed (status_failed : Bool)
deriving DecidableEq, Repr

/-- Receipt-wait outcome for the sell executor (sell_service.rs lines
745-747): identical except that the source wraps no timeout around the
receipt await, so no timeout outcome exists. -/
inductive SellReceiptWait where
  | wait_err (msg : String)
  | missing
  | confirmed (status_failed : Bool)
deriving DecidableEq, Repr

/-- Environment of one try_buy execution: loading the signing key,
constructing the signed transaction, submitting it, waiting for the
receipt, the outcome notification, and the three recovery fetches (token
balance, native balance, nonce) issued on a submission error.
send_message never returns Err (message_transport_service.rs lines 66-91
return Ok on every non-panicking path), but with telegram enabled it
unwraps the Bot API result internally, so a transport failure panics the
task; send_message = none models that panic, some () the non-panicking
return. -/
structure TryBuyEnv where
  load_wallet_ok : Bool
  construct_result : Except String Unit
  send_result : Except String Unit
  receipt : BuyReceiptWait
  send_message : Option Unit
  fetch_token_balance : Except String Nat
  fetch_eth_balance : Except String Nat
  fetch_nonce : Except String Nat

/-- Environment of one sell execution (sell_service.rs lines 696-791),
identical but with the timeout-free receipt wait and one extra fallible
step: both outcome messages interpolate format_units(sell_amount, ...)?
(sell_service.rs lines 752 and 762), whose error propagates out of sell
before the notification is sent. -/
structure SellEnv where
  load_wallet_ok : Bool
  construct_result : Except String Unit
  send_result : Except String Unit
  receipt : SellReceiptWait
  format_units_result : Except String Unit
  send_message : Option Unit
  fetch_token_balance : Except String Nat
  fetch_eth_balance : Except String Nat
  fetch_nonce : Except String Nat

/-- Embedding of AutoBuyService.try_buy (auto_buy_service.rs lines 744-839)
as a state transformer on the wallet entry: the first component is the
WalletContext the executor leaves behind in the shared map, the second the
Result value of the function, with none when the task panics (the write
guard is released on unwind and mutations already applied persist).  On a
confirmed receipt the native balance is decremented only on success status,
then the notification is sent (a panic there dies before the nonce
increment), then the nonce is incremented; on a submission error all three
fields are overwritten with freshly fetched values; every other outcome
leaves the wallet unchanged.  The eth_balance decrement uses truncated
subtraction (the executor is only invoked with buy_amount at most the
usable balance). -/
def try_buy (env : TryBuyEnv) (wc : WalletContext) (buy_amount : Nat) :
    WalletContext × Option (Except String Bool) :=
  if env.load_wallet_ok = false then (wc, some (.error "load_mnemonic_wallet")) else
  match env.construct_result with
  | .error _ => (wc, some (.ok true))
  | .ok _ =>
    match env.send_result with
    | .ok _ =>
      match env.receipt with
      | .timeout_elapsed => (wc, some (.error "Timeout occurred"))
      | .wait_err m => (wc, some (.error m))
      | .missing => (wc, some (.error "Cannot find tx_receipt"))
      | .confirmed status_failed =>
        let wc2 := if status_failed then wc
          else { wc with eth_balance := wc.eth_balance - buy_amount }
        match env.send_message with
        | none => (wc2, none)
        | some _ => ({ wc2 with nonce := wc2.nonce + 1 }, some (.ok true))
    | .error _ =>
      match env.fetch_token_balance, env.fetch_eth_balance, env.fetch_nonce with
      | .ok tb, .ok eb, .ok n =>
        ({ wc with token_balance := tb, eth_balance := eb, nonce := n }, some (.ok true))
      | .error e, _, _ => (wc, some (.error e))
      | .ok _, .error e, _ => (wc, some (.error e))
      | .ok _, .ok _, .error e => (wc, some (.error e))

/-- Embedding of SellService.sell (sell_service.rs lines 696-791): same
state machine with the token balance decremented on success status; the
message formatting (format_units) runs after the status match, so its error
exits with the success-status decrement already applied, and the
notification panic sits between it and the nonce increment. -/
def sell (env : SellEnv) (wc : WalletContext) (sell_amount : Nat) :
    WalletContext × Option (Except String Bool) :=
  if env.load_wallet_ok = false then (wc, some (.error "load_mnemonic_wallet")) else
  match env.construct_result with
  | .error _ => (wc, some (.ok true))
  | .ok _ =>
    match env.send_result with
    | .ok _ =>
      match env.receipt with
      | .wait_err m => (wc, some (.error m))
      | .missing => (wc, some (.error "Cannot find tx_receipt"))
      | .confirmed status_failed =>
        let wc2 := if status_failed then wc
          else { wc with token_balance := wc.token_balance - sell_amount }
        match env.format_units_result with
        | .error e => (wc2, some (.error e))
        | .ok _ =>
          match env.send_message with
          | none => (wc2, none)
          | some _ => ({ wc2 with nonce := wc2.nonce + 1 }, some (.ok true))
    | .error _ =>
      match env.fetch_token_balance, env.fetch_eth_balance, env.fetch_nonce with
      | .ok tb, .ok eb, .ok n =>
        ({ wc with token_balance := tb, eth_balance := eb, nonce := n }, some (.ok true))
      | .error e, _, _ => (wc, some (.error e))
      | .ok _, .error e, _ => (wc, some (.error e))
      | .ok _, .ok _, .error e => (wc, some (.error e))

/-- Counterexample to C6: a buy whose receipt confirms with failure status
but whose outcome notification panics (the telegram send is unwrapped
internally) leaves the wallet nonce at its old value 5 instead of
incrementing it: the panic sits between the status check and nonce += 1, so
the nonce does not always advance by exactly one. -/
theorem reverted_trade_notification_panic_counterexample :
    (try_buy ⟨true, .ok (), .ok (), .confirmed true, none, .ok 7, .ok 8, .ok 9⟩
        ⟨2, 10, 5, 100, 50⟩ 30 = (⟨2, 10, 5, 100, 50⟩, none)) ∧
    (5 : Nat) ≠ 5 + 1 :=
  ⟨rfl, by decide⟩

/-- C6 amended: a trade whose receipt confirms with failure status never
mutates the token or native balances, in either executor; the nonce is
incremented by exactly one provided the outcome notification does not panic
(and, for the sell executor, the volume formatting succeeds) — when the
notification panics, the task dies with the wallet entry unchanged and the
nonce not incremented. -/
theorem reverted_trade_preserves_balances_increments_nonce :
    (∀ (env : TryBuyEnv) (wc : WalletContext) (buy_amount : Nat),
      env.load_wallet_ok = true → env.construct_result = .ok () →
      env.send_result = .ok () → env.receipt = .confirmed true →
      (env.send_message = some () →
        try_buy env wc buy_amount =
          ({ wc with nonce := wc.nonce + 1 }, some (.ok true))) ∧
      (env.send_message = none →
        try_buy env wc buy_amount = (wc, none))) ∧
    (∀ (env : SellEnv) (wc : WalletContext) (sell_amount : Nat),
      env.load_wallet_ok = true → env.construct_result = .ok () →
      env.send_result = .ok () → env.receipt = .confirmed true →
      env.format_units_result = .ok () →
      (env.send_message = some () →
        sell env wc sell_amount =
          ({ wc with nonce := wc.nonce + 1 }, some (.ok true))) ∧
      (env.send_message = none →
        sell env wc sell_amount = (wc, none))) := by
  constructor
  · intro env wc buy_amount hload hcons hsend hrec
    constructor
    · intro hmsg
      unfold try_buy
      rw [hload, hcons, hsend, hrec, hmsg]
      simp
    · intro hmsg
      unfold try_buy
      rw [hload, hcons, hsend, hrec, hmsg]
      simp
  · intro env wc sell_amount hload hcons hsend hrec hfmt
    constructor
    · intro hmsg
      unfold sell
      rw [hload, hcons, hsend, hrec, hfmt, hmsg]
      simp
    · intro hmsg
      unfold sell
      rw [hload, hcons, hsend, hrec, hfmt, hmsg]
      simp

/-- Witness for the amended C6 on a concrete wallet and environment in both
executors, exercising the non-panicking notification branch. -/
theorem reverted_trade_preserves_balances_increments_nonce_witness :
    try_buy ⟨true, .ok (), .ok (), .confirmed true, some (), .ok 7, .ok 8, .ok 9⟩
        ⟨2, 10, 5, 100, 50⟩ 30 = (⟨2, 10, 6, 100, 50⟩, some (.ok true)) ∧
    sell ⟨true, .ok (), .ok (), .confirmed true, .ok (), some (), .ok 7, .ok 8, .ok 9⟩
        ⟨2, 10, 5, 100, 50⟩ 30 = (⟨2, 10, 6, 100, 50⟩, some (.ok true)) := by
  have h := reverted_trade_preserves_balances_increments_nonce
  exact ⟨(h.1 ⟨true, .ok (), .ok (), .confirmed true, some (), .ok 7, .ok 8, .ok 9⟩
      ⟨2, 10, 5, 100, 50⟩ 30 rfl rfl rfl rfl).1 rfl,
    (h.2 ⟨true, .ok (), .ok (), .confirmed true, .ok (), some (), .ok 7, .ok 8, .ok 9⟩
      ⟨2, 10, 5, 100, 50⟩ 30 rfl rfl rfl rfl rfl).1 rfl⟩

/-- Counterexample to C8: in an execution where submission succeeded, the
receipt wait timed out, and the recovery fetches would return (7, 8, 9),
try_buy returns the wallet entry unchanged together with an error: none of
the three fields is overwritten with the fetched truth, so the timeout path
is not treated like the submission-error resynchronization path. -/
theorem receipt_timeout_no_resync_counterexample :
    try_buy ⟨true, .ok (), .ok (), .timeout_elapsed, some (), .ok 7, .ok 8, .ok 9⟩
        ⟨2, 10, 5, 100, 50⟩ 30 =
      (⟨2, 10, 5, 100, 50⟩, some (.error "Timeout occurred")) ∧
    ((⟨2, 10, 5, 100, 50⟩ : WalletContext).token_balance ≠ 7 ∧
     (⟨2, 10, 5, 100, 50⟩ : WalletContext).eth_balance ≠ 8 ∧
     (⟨2, 10, 5, 100, 50⟩ : WalletContext).nonce ≠ 9) := by
  constructor
  · rfl
  · refine ⟨by decide, by decide, by decide⟩

/-- C8 amended: a receipt-wait timeout in the buy executor aborts with an
error and leaves every WalletContext field unchanged (no resynchronization);
the full on-chain resync (overwriting token balance, native balance and
nonce with fetched values) happens exactly on the submission-error path.
Neither path reaches the notification. -/
theorem receipt_timeout_aborts_without_resync :
    (∀ (env : TryBuyEnv) (wc : WalletContext) (buy_amount : Nat),
      env.load_wallet_ok = true → env.construct_result = .ok () →
      env.send_result = .ok () → env.receipt = .timeout_elapsed →
      try_buy env wc buy_amount = (wc, some (.error "Timeout occurred"))) ∧
    (∀ (env : TryBuyEnv) (wc : WalletContext) (buy_amount : Nat) (e : String)
        (tb eb n : Nat),
      env.load_wallet_ok = true → env.construct_result = .ok () →
      env.send_result = .error e →
      env.fetch_token_balance = .ok tb → env.fetch_eth_balance = .ok eb →
      env.fetch_nonce = .ok n →
      try_buy env wc buy_amount =
        ({ wc with token_balance := tb, eth_balance := eb, nonce := n },
          some (.ok true))) := by
  constructor
  · intro env wc buy_amount hload hcons hsend hrec
    unfold try_buy
    rw [hload, hcons, hsend, hrec]
    simp
  · intro env wc buy_amount e tb eb n hload hcons hsend htb heb hn
    unfold try_buy
    rw [hload, hcons, hsend, htb, heb, hn]
    simp

/-- Witness for the amended C8 on concrete environments. -/
theorem receipt_timeout_aborts_without_resync_witness :
    try_buy ⟨true, .ok (), .ok (), .timeout_elapsed, some (), .ok 7, .ok 8, .ok 9⟩
        ⟨1, 4, 2, 60, 40⟩ 10 = (⟨1, 4, 2, 60, 40⟩, some (.error "Timeout occurred")) ∧
    try_buy ⟨true, .ok (), .error "connection reset", .missing, some (),
        .ok 7, .ok 8, .ok 9⟩
        ⟨1, 4, 2, 60, 40⟩ 10 = (⟨1, 4, 9, 8, 7⟩, some (.ok true)) := by
  have h := receipt_timeout_aborts_without_resync
  exact ⟨h.1 ⟨true, .ok (), .ok (), .timeout_elapsed, some (), .ok 7, .ok 8, .ok 9⟩
      ⟨1, 4, 2, 60, 40⟩ 10 rfl rfl rfl rfl,
    h.2 ⟨true, .ok (), .error "connection reset", .missing, some (), .ok 7, .ok 8, .ok 9⟩
      ⟨1, 4, 2, 60, 40⟩ 10 "connection reset" 7 8 9 rfl rfl rfl rfl rfl rfl⟩

/-! ## Pair resolution (uniswap2_service.compute_pair_address,
    uniswap3_service.compute_pair_address) -/

/-- Environment of Uniswap2Service.compute_pair_address (uniswap2_service.rs
lines 195-220): the router factory() call, the factory get_pair call and the
pair token_0 call. -/
structure V2PairResolveEnv where
  factory : Except String Nat
  get_pair : Nat → Nat → Except String Nat
  token_0 : Nat → Except String Nat

/-- Embedding of the constant-product compute_pair_address: ask the factory
for the pair, fail when it is the zero address, otherwise read token0 and
report whether first_token is token0. -/
def compute_pair_address (env : V2PairResolveEnv) (first_token second_token : Nat) :
    Except String (Nat × Bool) :=
  match env.factory with
  | .error e => .error e
  | .ok _factory_address =>
    match env.get_pair first_token second_token with
    | .error e => .error e
    | .ok pair_address =>
      if pair_address = 0 then
        .error "Pair address not found for the given tokens"
      else
        match env.token_0 pair_address with
        | .error e => .error e
        | .ok token0_address => .ok (pair_address, first_token == token0_address)

/-- Environment of Uniswap3Service.compute_pair_address (uniswap3_service.rs
lines 269-369): factory() call, factory get_pool call keyed by
(tokenA, tokenB, fee tier), the probing quote
(self.get_amount_out_by_slippage with amount 100 and slippage 0, keyed by
pool and token order), and the pool token_0 call. -/
structure V3PairResolveEnv where
  factory : Except String Nat
  get_pool : Nat → Nat → Nat → Except String Nat
  get_amount_out_by_slippage : Nat → Nat → Nat → Nat → Except String Nat
  token_0 : Nat → Except String Nat

/-- Tier probing loop of the concentrated-liquidity compute_pair_address:
for each fee tier, skip zero pools, quote a fixed probe amount of 100 with
the token order determined by (is_buy, first_token == weth) and keep the
tier with the greatest output, recording which side holds the first token.
An all-zero or all-dry probe leaves the zero address in the accumulator. -/
def compute_pair_address_v3_tier_loop (env : V3PairResolveEnv) (weth_address : Nat)
    (first_token second_token : Nat) (is_buy : Bool) :
    List Nat → Nat × Nat × Bool → Except String (Nat × Nat × Bool)
  | [], st => .ok st
  | fee_tier :: rest, (max_amount_out, max_pair_address, is_first_token_0) =>
    match env.get_pool first_token second_token fee_tier with
    | .error e => .error e
    | .ok pair_address =>
      if pair_address = 0 then
        compute_pair_address_v3_tier_loop env weth_address first_token second_token
          is_buy rest (max_amount_out, max_pair_address, is_first_token_0)
      else
        let is_first_token_weth := first_token == weth_address
        match
          (if is_buy && is_first_token_weth then
            env.get_amount_out_by_slippage pair_address first_token second_token 100
          else if is_buy && !is_first_token_weth then
            env.get_amount_out_by_slippage pair_address second_token first_token 100
          else if !is_buy && is_first_token_weth then
            env.get_amount_out_by_slippage pair_address second_token first_token 100
          else
            env.get_amount_out_by_slippage pair_address first_token second_token 100) with
        | .error e => .error e
        | .ok amount_out_min =>
          if amount_out_min > max_amount_out then
            match env.token_0 pair_address with
            | .error e => .error e
            | .ok token0_address =>
              compute_pair_address_v3_tier_loop env weth_address first_token second_token
                is_buy rest (amount_out_min, pair_address, first_token == token0_address)
          else
            compute_pair_address_v3_tier_loop env weth_address first_token second_token
              is_buy rest (max_amount_out, max_pair_address, is_first_token_0)

/-- Embedding of the concentrated-liquidity compute_pair_address: with a fee
tier hint the factory get_pool answer is returned directly (paired with
false); without a hint the three standard tiers are probed. -/
def compute_pair_address_v3 (env : V3PairResolveEnv) (weth_address : Nat)
    (first_token second_token : Nat) (is_buy : Bool) (fee_tier_v3 : Option Nat) :
    Except String (Nat × Bool) :=
  match env.factory with
  | .error e => .error e
  | .ok _factory_address =>
    match fee_tier_v3 with
    | some fee =>
      match env.get_pool first_token second_token fee with
      | .error e => .error e
      | .ok pool_address => .ok (pool_address, false)
    | none =>
      match compute_pair_address_v3_tier_loop env weth_address first_token second_token
          is_buy [500, 3000, 10000] (0, 0, false) with
      | .error e => .error e
      | .ok (_, max_pair_address, is_first_token_0) =>
        .ok (max_pair_address, is_first_token_0)

/-- Counterexample to C4: when the factory reports no pool for the hinted
fee tier (get_pool answers the zero address), the concentrated-liquidity
compute_pair_address succeeds with the zero address instead of
short-circuiting with an error. -/
theorem compute_pair_address_v3_zero_counterexample :
    compute_pair_address_v3
        ⟨.ok 1, fun _ _ _ => .ok 0, fun _ _ _ _ => .ok 0, fun _ => .ok 0⟩
        5 6 7 true (some 3000) = .ok (0, false) := rfl

/-- C4 amended: the constant-product compute_pair_address never returns the
zero address as a successful result (zero short-circuits with an error), but
the concentrated-liquidity compute_pair_address with a fee-tier hint returns
the factory get_pool answer unchecked, zero included. -/
theorem pair_address_zero_shortcircuit_amended :
    (∀ (env : V2PairResolveEnv) (first_token second_token pair : Nat) (b : Bool),
      compute_pair_address env first_token second_token = .ok (pair, b) →
      pair ≠ 0) ∧
    (∀ (env : V3PairResolveEnv) (weth_address first_token second_token : Nat)
        (is_buy : Bool) (fee f pool : Nat),
      env.factory = .ok f →
      env.get_pool first_token second_token fee = .ok pool →
      compute_pair_address_v3 env weth_address first_token second_token is_buy
        (some fee) = .ok (pool, false)) := by
  constructor
  · intro env first_token second_token pair b h
    unfold compute_pair_address at h
    cases hf : env.factory with
    | error e => rw [hf] at h; exact Except.noConfusion h
    | ok fa =>
      rw [hf] at h
      simp only at h
      cases hp : env.get_pair first_token second_token with
      | error e => rw [hp] at h; exact Except.noConfusion h
      | ok pair_address =>
        rw [hp] at h
        simp only at h
        by_cases hz : pair_address = 0
        · rw [if_pos hz] at h; exact Except.noConfusion h
        · rw [if_neg hz] at h
          cases ht : env.token_0 pair_address with
          | error e => rw [ht] at h; exact Except.noConfusion h
          | ok t0 =>
            rw [ht] at h
            simp only [Except.ok.injEq, Prod.mk.injEq] at h
            intro hzero
            exact hz (by omega)
  · intro env weth_address first_token second_token is_buy fee f pool hf hp
    unfold compute_pair_address_v3
    rw [hf]
    simp only
    rw [hp]

/-- Witness for the amended C4 at concrete environments. -/
theorem pair_address_zero_shortcircuit_amended_witness :
    (42 : Nat) ≠ 0 ∧
    compute_pair_address_v3
        ⟨.ok 1, fun _ _ _ => .ok 0, fun _ _ _ _ => .ok 0, fun _ => .ok 0⟩
        5 6 7 false (some 500) = .ok (0, false) := by
  have h1 := pair_address_zero_shortcircuit_amended.1
    ⟨.ok 1, fun _ _ => .ok 42, fun _ => .ok 6⟩ 6 7 42 true rfl
  have h2 := pair_address_zero_shortcircuit_amended.2
    ⟨.ok 1, fun _ _ _ => .ok 0, fun _ _ _ _ => .ok 0, fun _ => .ok 0⟩
    5 6 7 false 500 1 0 rfl rfl
  exact ⟨h1, h2⟩

/-! ## Swap transaction construction (uniswap2_service.buy_token /
    sell_token, uniswap3_service.buy_token / sell_token) -/

/-- Fields of the constructed constant-product swap transaction relevant to
the specification (uniswap2_service.rs lines 89-140 and 142-195): the
amountOutMin argument, the fixed gas limit, the shared gas price, the native
value attached (buys only; zero for sells), the nonce and the 60-second
deadline. -/
structure BuiltV2SwapTx where
  amount_out_min : Nat
  gas : Nat
  gas_price : Nat
  value : Nat
  nonce : Nat
  deadline : Nat
deriving DecidableEq, Repr

/-- Environment of a constant-product build: the shared gas-price cell, the
current clock, the get_amount_out_min call chain used when slippage is
applied, and the fetched nonce used when the caller passes none. -/
structure V2BuildEnv where
  gas_price : Nat
  now : Nat
  quoted_amount_out_min : Except String Nat
  fetched_nonce : Nat

/-- Embedding of Uniswap2Service.buy_token: amountOutMin is the quoted
haircut when slippage protection is applied and exactly U256::one() when it
is disabled. -/
def uniswap2_buy_token (env : V2BuildEnv) (nonce : Option Nat) (buy_amount : Nat)
    (is_apply_slippage : Bool) : Except String BuiltV2SwapTx :=
  let deadline := env.now + 60
  match (if is_apply_slippage then env.quoted_amount_out_min else .ok 1) with
  | .error e => .error e
  | .ok amount_out_min =>
    let nonce := nonce.getD env.fetched_nonce
    .ok { amount_out_min, gas := 500000, gas_price := env.gas_price,
          value := buy_amount, nonce, deadline }

/-- Embedding of Uniswap2Service.sell_token: same amountOutMin selection; the
sell transaction carries no native value. -/
def uniswap2_sell_token (env : V2BuildEnv) (nonce : Option Nat) (sell_amount : Nat)
    (is_apply_slippage : Bool) : Except String BuiltV2SwapTx :=
  let deadline := env.now + 60
  match (if is_apply_slippage then env.quoted_amount_out_min else .ok 1) with
  | .error e => .error e
  | .ok amount_out_min =>
    let nonce := nonce.getD env.fetched_nonce
    .ok { amount_out_min, gas := 500000, gas_price := env.gas_price,
          value := 0, nonce, deadline }

/-- Fields of the constructed concentrated-liquidity exact_input_single
transaction relevant to the specification (uniswap3_service.rs lines 92-158
and 160-226). -/
structure BuiltV3SwapTx where
  amount_out_minimum : Nat
  fee : Nat
  gas : Nat
  gas_price : Nat
  nonce : Nat
deriving DecidableEq, Repr

/-- Environment of a concentrated-liquidity build: the pool liquidity and
fee calls, the shared gas-price cell, the get_amount_out_by_slippage call
chain used when slippage is applied, and the fetched nonce. -/
structure V3BuildEnv where
  liquidity : Except String Nat
  pool_fee : Except String Nat
  gas_price : Nat
  quoted_amount_out : Except String Nat
  fetched_nonce : Nat

/-- Embedding of Uniswap3Service.buy_token: zero-liquidity pools are
rejected, and amount_out_minimum is the quoted haircut when slippage
protection is applied and U256::zero() when it is disabled. -/
def uniswap3_buy_token (env : V3BuildEnv) (nonce : Option Nat) (amount_in : Nat)
    (is_apply_slippage : Bool) : Except String BuiltV3SwapTx :=
  match env.liquidity with
  | .error e => .error e
  | .ok liquidity =>
    if liquidity = 0 then .error "Pool without liquidity"
    else
      match env.pool_fee with
      | .error e => .error e
      | .ok pool_fee =>
        match (if is_apply_slippage then env.quoted_amount_out else .ok 0) with
        | .error e => .error e
        | .ok amount_out_minimum =>
          .ok { amount_out_minimum, fee := pool_fee, gas := 700000,
                gas_price := env.gas_price, nonce := nonce.getD env.fetched_nonce }

/-- Embedding of Uniswap3Service.sell_token: identical structure with the
token direction reversed in the quote (carried by the environment). -/
def uniswap3_sell_token (env : V3BuildEnv) (nonce : Option Nat) (amount_in : Nat)
    (is_apply_slippage : Bool) : Except String BuiltV3SwapTx :=
  match env.liquidity with
  | .error e => .error e
  | .ok liquidity =>
    if liquidity = 0 then .error "Pool without liquidity"
    else
      match env.pool_fee with
      | .error e => .error e
      | .ok pool_fee =>
        match (if is_apply_slippage then env.quoted_amount_out else .ok 0) with
        | .error e => .error e
        | .ok amount_out_minimum =>
          .ok { amount_out_minimum, fee := pool_fee, gas := 700000,
                gas_price := env.gas_price, nonce := nonce.getD env.fetched_nonce }

/-- Counterexample to C7: the concentrated-liquidity buy with slippage
protection disabled places amount_out_minimum = 0 in the transaction, not
the claimed 1 wei. -/
theorem disabled_slippage_v3_zero_counterexample :
    uniswap3_buy_token ⟨.ok 77, .ok 3000, 5, .ok 999, 4⟩ (some 2) 50 false =
      .ok ⟨0, 3000, 700000, 5, 2⟩ ∧ (0 : Nat) ≠ 1 :=
  ⟨rfl, by decide⟩

/-- C7 amended: with slippage protection disabled the constant-product
routers place exactly 1 wei as amountOutMin while the concentrated-liquidity
routers place exactly 0 as amount_out_minimum, in both trade directions. -/
theorem disabled_slippage_min_out_amended :
    (∀ (env : V2BuildEnv) (nonce : Option Nat) (amount : Nat) (tx : BuiltV2SwapTx),
      uniswap2_buy_token env nonce amount false = .ok tx → tx.amount_out_min = 1) ∧
    (∀ (env : V2BuildEnv) (nonce : Option Nat) (amount : Nat) (tx : BuiltV2SwapTx),
      uniswap2_sell_token env nonce amount false = .ok tx → tx.amount_out_min = 1) ∧
    (∀ (env : V3BuildEnv) (nonce : Option Nat) (amount : Nat) (tx : BuiltV3SwapTx),
      uniswap3_buy_token env nonce amount false = .ok tx →
      tx.amount_out_minimum = 0) ∧
    (∀ (env : V3BuildEnv) (nonce : Option Nat) (amount : Nat) (tx : BuiltV3SwapTx),
      uniswap3_sell_token env nonce amount false = .ok tx →
      tx.amount_out_minimum = 0) := by
  refine ⟨?_, ?_, ?_, ?_⟩
  · intro env nonce amount tx h
    unfold uniswap2_buy_token at h
    simp only [if_false, ite_false] at h
    injection h with h2
    rw [← h2]
  · intro env nonce amount tx h
    unfold uniswap2_sell_token at h
    simp only [if_false, ite_false] at h
    injection h with h2
    rw [← h2]
  · intro env nonce amount tx h
    unfold uniswap3_buy_token at h
    cases hl : env.liquidity with
    | error e => rw [hl] at h; exact Except.noConfusion h
    | ok liquidity =>
      rw [hl] at h
      simp only at h
      by_cases hz : liquidity = 0
      · rw [if_pos hz] at h; exact Except.noConfusion h
      · rw [if_neg hz] at h
        cases hfee : env.pool_fee with
        | error e => rw [hfee] at h; exact Except.noConfusion h
        | ok pool_fee =>
          rw [hfee] at h
          simp only [ite_false] at h
          injection h with h2
          rw [← h2]
  · intro env nonce amount tx h
    unfold uniswap3_sell_token at h
    cases hl : env.liquidity with
    | error e => rw [hl] at h; exact Except.noConfusion h
    | ok liquidity =>
      rw [hl] at h
      simp only at h
      by_cases hz : liquidity = 0
      · rw [if_pos hz] at h; exact Except.noConfusion h
      · rw [if_neg hz] at h
        cases hfee : env.pool_fee with
        | error e => rw [hfee] at h; exact Except.noConfusion h
        | ok pool_fee =>
          rw [hfee] at h
          simp only [ite_false] at h
          injection h with h2
          rw [← h2]

/-- Witness for the amended C7 on concrete environments. -/
theorem disabled_slippage_min_out_amended_witness :
    ((⟨1, 500000, 9, 50, 2, 160⟩ : BuiltV2SwapTx).amount_out_min = 1) ∧
    ((⟨0, 3000, 700000, 5, 2⟩ : BuiltV3SwapTx).amount_out_minimum = 0) := by
  have h1 := disabled_slippage_min_out_amended.1
    ⟨9, 100, .ok 888, 3⟩ (some 2) 50 ⟨1, 500000, 9, 50, 2, 160⟩ rfl
  have h3 := disabled_slippage_min_out_amended.2.2.1
    ⟨.ok 77, .ok 3000, 5, .ok 999, 4⟩ (some 2) 50 ⟨0, 3000, 700000, 5, 2⟩ rfl
  exact ⟨h1, h3⟩

/-! ## Dedupe cache between the mempool feed and the confirmed-log feed -/

/-- State of the shared TimedCache for one fixed transaction hash observed
within the TTL window, together with the number of trade triggers processed
for that hash. -/
structure DedupeState where
  cached : Bool
  triggers : Nat
deriving DecidableEq, Repr

/-- Mempool feed handling of a matching transaction (auto_buy_service.rs
lines 481-492): under the cache lock the hash is inserted (cache_set) with
no membership check, then process_trigger_buy runs. -/
def mempool_feed_step (s : DedupeState) : DedupeState :=
  { cached := true, triggers := s.triggers + 1 }

/-- Confirmed-log feed handling of the same transaction (auto_buy_service.rs
lines 551-629): after the one-second delay the cache lock is taken and held
for the rest of the iteration; a cached hash is skipped, otherwise the
trigger is processed.  The feed never inserts the hash itself. -/
def detect_sell_tx_step (s : DedupeState) : DedupeState :=
  if s.cached then s else { s with triggers := s.triggers + 1 }

/-- Both critical sections run under the same mutex, so an execution is
determined by which feed acquires the cache lock first. -/
def dedupe_outcome (mempool_lock_first : Bool) : DedupeState :=
  if mempool_lock_first then detect_sell_tx_step (mempool_feed_step ⟨false, 0⟩)
  else mempool_feed_step (detect_sell_tx_step ⟨false, 0⟩)

/-- Counterexample to C9: in the interleaving where the confirmed-log feed
acquires the cache lock before the mempool feed has inserted the hash, both
feeds process the trigger: two triggers result for the one hash, not exactly
one. -/
theorem dedupe_double_trigger_counterexample :
    (dedupe_outcome false).triggers = 2 := rfl

/-- C9 amended: the hash triggers exactly once only in the interleaving
where the mempool feed inserts into the cache before the confirmed-log feed
performs its membership check; in the opposite interleaving both feeds
process the hash, because the mempool feed never checks membership before
inserting and the confirmed-log feed never inserts — the one-second delay is
a heuristic, not a synchronization. -/
theorem dedupe_at_most_once_amended :
    (dedupe_outcome true).triggers = 1 ∧ (dedupe_outcome false).triggers = 2 :=
  ⟨rfl, rfl⟩
